import Mathlib

/-!
Shallow embedding of netthread.cpp: a program that races a reverse-DNS
lookup thread (getfqdn) against a millisecond timer thread (timer), and
reports either the fully qualified domain name found or falls back to the
plain hostname.

Strings are modelled as List Char.  The OS-provided primitives
(gethostname, getifaddrs, getnameinfo, the pthread calls) are modelled as
environment inputs: each interface-address entry is either not an
IPv4/IPv6 address, an address whose reverse lookup fails, or an address
whose reverse lookup returns a host name.  Machine 32-bit int arithmetic
is modelled with an explicit wrap at 2^32.
-/

namespace Netthread

/-- Model of std::string::find: the index of the first occurrence of pat
as a contiguous substring of s, none when there is no occurrence
(std::string::npos).  An empty pattern occurs at index 0. -/
def strFind (s pat : List Char) : Option Nat :=
  match s with
  | [] => if pat = [] then some 0 else none
  | _ :: rest =>
    if pat.isPrefixOf s then some 0
    else (strFind rest pat).map (fun i => i + 1)

/-- Embedding of the acceptance test at netthread.cpp:165:
(candidate.find(base) != std::string::npos) && baseSize < candidate.size(). -/
def accept (candidate base : List Char) : Bool :=
  (strFind candidate base).isSome && decide (base.length < candidate.length)

/-- Embedding of class HostInfo (netthread.cpp:38-71): the shared result
record.  The timer-thread id field is an opaque handle and carries no
data relevant to the claims, so it is not modelled. -/
structure HostInfo where
  Hostname : List Char
  Fqdn : List Char
  Error : Int
deriving DecidableEq, Repr

/-- Embedding of the HostInfo constructor (netthread.cpp:74-87):
gethostname fills a buffer (modelled by osName, whatever the OS put
there); on gethostname failure Error is set to -1; Hostname and Fqdn are
both set from the buffer. -/
def HostInfo.construct (gethostnameFails : Bool) (osName : List Char) : HostInfo :=
  { Hostname := osName, Fqdn := osName
    Error := if gethostnameFails then -1 else 0 }

/-- Embedding of HostInfo::GetFqdn (netthread.cpp:90-97): returns
Hostname when the error flag is set, Fqdn otherwise. -/
def HostInfo.GetFqdn (info : HostInfo) : List Char :=
  if info.Error ≠ 0 then info.Hostname else info.Fqdn

/-- Embedding of HostInfo::SetFqdn (netthread.cpp:100-105): overwrites
Fqdn, clears the error flag.  The pthread_cancel of the timer thread it
also issues is a best-effort cancellation with no effect on the record. -/
def HostInfo.SetFqdn (info : HostInfo) (fqdn : List Char) : HostInfo :=
  { info with Fqdn := fqdn, Error := 0 }

/-- Embedding of HostInfo::SetError (netthread.cpp:64). -/
def HostInfo.SetError (info : HostInfo) (err : Int) : HostInfo :=
  { info with Error := err }

/-- One entry of the getifaddrs list, as getfqdn observes it: either not
an IPv4/IPv6 address (skipped at netthread.cpp:140-141), an address whose
getnameinfo call fails (netthread.cpp:156, including NI_NAMEREQD finding
no name), or an address whose getnameinfo call returns a host name. -/
inductive IfAddr where
  | nonIP : IfAddr
  | lookupFail : IfAddr
  | lookupOk : List Char → IfAddr
deriving DecidableEq, Repr

/-- Observable events of a getfqdn run, used to reason about how far an
abandoned run got and which side effects it performed. -/
inductive Ev where
  | enumOk : Ev
  | enumFail : Ev
  | lookupOkEv : List Char → Ev
  | lookupFailEv : Ev
  | matchEv : List Char → Bool → Ev
  | writeFqdn : List Char → Ev
  | freeAddrs : Ev
deriving DecidableEq, Repr

/-- Embedding of the interface loop of getfqdn (netthread.cpp:138-172),
also returning the list of events it performs.  A non-IP entry is
skipped; a failed lookup sets Error := -3 and continues; a successful
lookup whose candidate passes the acceptance test triggers SetFqdn and
breaks out of the loop. -/
def getfqdnLoop (base : List Char) (info : HostInfo) :
    List IfAddr → HostInfo × List Ev
  | [] => (info, [])
  | IfAddr.nonIP :: rest => getfqdnLoop base info rest
  | IfAddr.lookupFail :: rest =>
    let r := getfqdnLoop base (info.SetError (-3)) rest
    (r.1, Ev.lookupFailEv :: r.2)
  | IfAddr.lookupOk host :: rest =>
    if accept host base then
      (info.SetFqdn host, [Ev.lookupOkEv host, Ev.matchEv host true, Ev.writeFqdn host])
    else
      let r := getfqdnLoop base info rest
      (r.1, Ev.lookupOkEv host :: Ev.matchEv host false :: r.2)

/-- Embedding of getfqdn (netthread.cpp:108-175).  The ifas argument is
none when getifaddrs fails (netthread.cpp:132: SetError(-2) and return
with no list allocated), some l when it returns the entry list l.  On the
some path freeifaddrs (netthread.cpp:173) is the final event. -/
def getfqdn (info : HostInfo) (ifas : Option (List IfAddr)) :
    HostInfo × List Ev :=
  match ifas with
  | none => (info.SetError (-2), [Ev.enumFail])
  | some l =>
    let r := getfqdnLoop info.Hostname info l
    (r.1, Ev.enumOk :: (r.2 ++ [Ev.freeAddrs]))

/-- First candidate in enumeration order that passes the acceptance
test, if any. -/
def firstAccepted (base : List Char) : List IfAddr → Option (List Char)
  | [] => none
  | IfAddr.lookupOk host :: rest =>
    if accept host base then some host else firstAccepted base rest
  | _ :: rest => firstAccepted base rest

/-- The values written to the Fqdn field during a run, extracted from
the event list. -/
def fqdnWrites (evs : List Ev) : List (List Char) :=
  evs.filterMap fun e =>
    match e with
    | Ev.writeFqdn h => some h
    | _ => none

/-- Whether an event is a reverse-lookup call (getnameinfo). -/
def isLookupEv : Ev → Bool
  | Ev.lookupOkEv _ => true
  | Ev.lookupFailEv => true
  | _ => false

/-- Whether an event is an application of the match policy. -/
def isMatchEv : Ev → Bool
  | Ev.matchEv _ _ => true
  | _ => false

/-- Whether an ifaddrs entry is an IPv4/IPv6 address (netthread.cpp:141). -/
def isIP : IfAddr → Bool
  | IfAddr.nonIP => false
  | _ => true

/-- Two's-complement wrap of an integer to a signed 32-bit machine int,
modelling C int arithmetic. -/
def int32wrap (x : Int) : Int := (x + 2 ^ 31) % 2 ^ 32 - 2 ^ 31

/-- Embedding of the timespec built by timer (netthread.cpp:26-28):
tv_sec = 0 and tv_nsec = 1000000 * msec, the product computed in C int
arithmetic.  Returned as (tv_sec, tv_nsec). -/
def timerRequest (msec : Int) : Int × Int := (0, int32wrap (1000000 * msec))

/-- A timespec is a valid nanosleep argument iff tv_sec is non-negative
and tv_nsec lies in [0, 999999999]; otherwise nanosleep fails with EINVAL
immediately, performing no wait. -/
def nanosleepValid (req : Int × Int) : Bool :=
  decide (0 ≤ req.1) && decide (0 ≤ req.2) && decide (req.2 ≤ 999999999)

/-- Follows the spec's words (sections 4.1 and claim C2): a request is a
valid waiting request for msec milliseconds iff nanosleep accepts it and
its total duration in nanoseconds equals msec * 10^6. -/
def requestWaitsFor (req : Int × Int) (msec : Int) : Prop :=
  nanosleepValid req = true ∧ req.1 * 1000000000 + req.2 = msec * 1000000

/-- Whitespace as recognised by C isspace in the default locale, used by
atoi to skip leading whitespace. -/
def cIsSpace (c : Char) : Bool :=
  c = ' ' || c = '\t' || c = '\n' || c = '\x0b' || c = '\x0c' || c = '\r'

/-- Digit scan of atoi: consumes leading decimal digits, accumulating
their value; stops at the first non-digit. -/
def atoiDigits : List Char → Int → Int
  | [], acc => acc
  | c :: rest, acc =>
    if c.isDigit then atoiDigits rest (10 * acc + (c.toNat - '0'.toNat : Nat))
    else acc

/-- Embedding of C atoi as used at netthread.cpp:189: skip leading
whitespace, an optional sign, then decimal digits; any string with no
leading digits yields 0; no error reporting.  (Overflow is undefined
behaviour in C and is not modelled: values stay exact.) -/
def atoi (s : List Char) : Int :=
  match s.dropWhile cIsSpace with
  | '-' :: rest => -(atoiDigits rest 0)
  | '+' :: rest => atoiDigits rest 0
  | s1 => atoiDigits s1 0

/-- The argument-handling stage of main (netthread.cpp:180-189): with
exactly two argv entries the timeout is atoi(argv[1]) and the race is
attempted (some timeout); any other argument count exits with code -1
(none). -/
def mainConfig : List (List Char) → Option Int
  | [_prog, arg] => some (atoi arg)
  | _ => none

/-- Environment of one run of main: the outcomes of the OS and pthread
calls it makes.  The boolean fields record whether each call fails;
rdnsFinished records whether pthread_cancel(rDnsTid) returned ESRCH
(the resolver thread had already finished); cancelPoint is the number of
ifaddrs entries the resolver had processed when it was cancelled, in the
case it had not finished. -/
structure RaceEnv where
  gethostnameFails : Bool
  osName : List Char
  timerCreateFails : Bool
  rdnsCreateFails : Bool
  timerJoinFails : Bool
  rdnsFinished : Bool
  rdnsJoinFails : Bool
  ifas : Option (List IfAddr)
  cancelPoint : Nat

/-- The states the resolver passes through, indexed by the number k of
ifaddrs entries processed so far: the state of an abandoned run is the
state after some such k.  k = 0 is the state at thread start; on the
enumeration-failure path the only later state has Error = -2; on the
some path the state after k entries is the loop run on the k-entry
prefix (after a break the state no longer changes, which the prefix run
also satisfies). -/
def resolverState (info : HostInfo) (ifas : Option (List IfAddr)) (k : Nat) :
    HostInfo :=
  match ifas with
  | none => if k = 0 then info else info.SetError (-2)
  | some l => (getfqdnLoop info.Hostname info (l.take k)).1

/-- Embedding of main (netthread.cpp:178-249): returns the process exit
code and, when the reporting point is reached, the reported fqdn value
(the final cerr line prints info.GetFqdn()).  Exit paths in source
order: argument check (-1), timer pthread_create (-2), rdns
pthread_create (-1), timer pthread_join (-3), rdns pthread_join (-5),
then reporting and return 0.  When the resolver had finished before the
cancel probe its record is the completed getfqdn run; otherwise the
record is whatever state the cancelled run reached. -/
def mainRun (argv : List (List Char)) (env : RaceEnv) :
    Int × Option (List Char) :=
  match mainConfig argv with
  | none => (-1, none)
  | some _timeout =>
    if env.timerCreateFails then (-2, none)
    else if env.rdnsCreateFails then (-1, none)
    else if env.timerJoinFails then (-3, none)
    else if env.rdnsJoinFails then (-5, none)
    else
      let info0 := HostInfo.construct env.gethostnameFails env.osName
      let info :=
        if env.rdnsFinished then (getfqdn info0 env.ifas).1
        else resolverState info0 env.ifas env.cancelPoint
      (0, some info.GetFqdn)

/-- The Result Record invariant of spec section 3: Fqdn is either exactly
Hostname, or contains Hostname as a substring and is strictly longer
(hence a strict substring occurrence). -/
def HostInvariant (info : HostInfo) : Prop :=
  info.Fqdn = info.Hostname ∨
    (info.Hostname <:+: info.Fqdn ∧ info.Hostname.length < info.Fqdn.length)

/-! Helper lemmas. -/

theorem strFind_isSome_iff (s pat : List Char) :
    (strFind s pat).isSome = true ↔ pat <:+: s := by
  induction s with
  | nil =>
    by_cases h : pat = ([] : List Char) <;> simp [strFind, h]
  | cons a rest ih =>
    by_cases h : pat.isPrefixOf (a :: rest)
    · simp only [strFind, h, if_pos, Option.isSome_some, true_iff]
      exact (List.isPrefixOf_iff_prefix.mp h).isInfix
    · simp only [strFind, h, if_neg, Bool.false_eq_true, not_false_iff,
        Option.isSome_map']
      rw [ih, List.infix_cons_iff]
      have hnp : ¬ pat <+: a :: rest := fun hp =>
        h (List.isPrefixOf_iff_prefix.mpr hp)
      tauto

theorem accept_iff (c b : List Char) :
    accept c b = true ↔ b <:+: c ∧ b.length < c.length := by
  simp [accept, strFind_isSome_iff]

theorem getfqdnLoop_Hostname (base : List Char) (info : HostInfo)
    (l : List IfAddr) :
    ((getfqdnLoop base info l).1).Hostname = info.Hostname := by
  induction l generalizing info with
  | nil => rfl
  | cons a rest ih =>
    cases a with
    | nonIP => exact ih info
    | lookupFail => exact ih (info.SetError (-3))
    | lookupOk h =>
      by_cases hacc : accept h base
      · simp [getfqdnLoop, hacc, HostInfo.SetFqdn]
      · simpa [getfqdnLoop, hacc] using ih info

theorem getfqdnLoop_Fqdn (base : List Char) (info : HostInfo)
    (l : List IfAddr) :
    ((getfqdnLoop base info l).1).Fqdn = (firstAccepted base l).getD info.Fqdn := by
  induction l generalizing info with
  | nil => rfl
  | cons a rest ih =>
    cases a with
    | nonIP => exact ih info
    | lookupFail => exact ih (info.SetError (-3))
    | lookupOk h =>
      by_cases hacc : accept h base
      · simp [getfqdnLoop, firstAccepted, hacc, HostInfo.SetFqdn]
      · simpa [getfqdnLoop, firstAccepted, hacc] using ih info

theorem fqdnWrites_getfqdnLoop (base : List Char) (info : HostInfo)
    (l : List IfAddr) :
    fqdnWrites (getfqdnLoop base info l).2 = (firstAccepted base l).toList := by
  induction l generalizing info with
  | nil => rfl
  | cons a rest ih =>
    cases a with
    | nonIP => exact ih info
    | lookupFail =>
      have h3 := ih (info.SetError (-3))
      simpa [getfqdnLoop, firstAccepted, fqdnWrites] using h3
    | lookupOk h =>
      by_cases hacc : accept h base
      · simp [getfqdnLoop, firstAccepted, hacc, fqdnWrites]
      · simpa [getfqdnLoop, firstAccepted, hacc, fqdnWrites] using ih info

theorem getfqdnLoop_stop (base : List Char) (info : HostInfo)
    (l₁ l₂ : List IfAddr) (c : List Char) (hacc : accept c base = true) :
    getfqdnLoop base info (l₁ ++ IfAddr.lookupOk c :: l₂) =
      getfqdnLoop base info (l₁ ++ [IfAddr.lookupOk c]) := by
  induction l₁ generalizing info with
  | nil => simp [getfqdnLoop, hacc]
  | cons a rest ih =>
    cases a with
    | nonIP => simpa [getfqdnLoop] using ih info
    | lookupFail =>
      simp only [List.cons_append, getfqdnLoop, List.append_eq]
      rw [ih (info.SetError (-3))]
    | lookupOk h =>
      by_cases h2 : accept h base
      · simp [getfqdnLoop, h2]
      · simp only [List.cons_append, getfqdnLoop, h2, if_neg,
          Bool.false_eq_true, not_false_iff, List.append_eq]
        rw [ih info]

theorem hostInvariant_loop (base : List Char) (info : HostInfo)
    (l : List IfAddr) (hbase : base = info.Hostname)
    (hinv : HostInvariant info) :
    HostInvariant ((getfqdnLoop base info l).1) := by
  induction l generalizing info with
  | nil => exact hinv
  | cons a rest ih =>
    cases a with
    | nonIP => exact ih info hbase hinv
    | lookupFail => exact ih (info.SetError (-3)) hbase hinv
    | lookupOk h =>
      by_cases hacc : accept h base
      · simp only [getfqdnLoop, hacc, if_pos]
        right
        obtain ⟨hi, hl⟩ := (accept_iff h base).mp hacc
        rw [hbase] at hi hl
        exact ⟨hi, hl⟩
      · simp only [getfqdnLoop, hacc, if_neg, Bool.false_eq_true, not_false_iff]
        exact ih info hbase hinv

theorem loop_lookup_event (base : List Char) (info : HostInfo)
    (l : List IfAddr) (h : l.any isIP = true) :
    ((getfqdnLoop base info l).2).any isLookupEv = true := by
  induction l generalizing info with
  | nil => simp at h
  | cons a rest ih =>
    cases a with
    | nonIP =>
      simp only [List.any_cons, isIP, Bool.false_or] at h
      exact ih info h
    | lookupFail => simp [getfqdnLoop, isLookupEv]
    | lookupOk hst =>
      by_cases hacc : accept hst base <;> simp [getfqdnLoop, hacc, isLookupEv]

/-! Claim theorems. -/

/-- C1: the acceptance test accepts candidate c against base b iff b is a
substring of c and c is strictly longer than b; in particular c = b and
any c no longer than b are rejected. -/
theorem accept_policy_iff (c b : List Char) :
    (accept c b = true ↔ b <:+: c ∧ b.length < c.length) ∧
    accept b b = false ∧
    (c.length ≤ b.length → accept c b = false) := by
  refine ⟨accept_iff c b, ?_, ?_⟩
  · cases h : accept b b with
    | false => rfl
    | true => exact absurd ((accept_iff b b).mp h).2 (lt_irrefl _)
  · intro hle
    cases h : accept c b with
    | false => rfl
    | true => exact absurd ((accept_iff c b).mp h).2 (by omega)

/-- Witness for C1 at concrete inputs: accept "ab" "a", reject "a" "a"
(equal) and "a" "ab" (shorter). -/
theorem accept_policy_iff_witness :
    accept ['a', 'b'] ['a'] = true ∧ accept ['a'] ['a'] = false ∧
    accept ['a'] ['a', 'b'] = false :=
  ⟨(accept_policy_iff ['a', 'b'] ['a']).1.mpr ⟨⟨[], ['b'], rfl⟩, by decide⟩,
   (accept_policy_iff ['a', 'b'] ['a']).2.1,
   (accept_policy_iff ['a'] ['a', 'b']).2.2 (by decide)⟩

/-- C2: evaluation of the timer request at concrete inputs.  The claim
says that for every non-negative msec the request (tv_sec = 0, tv_nsec =
1000000*msec) is a valid waiting request for msec milliseconds.  At msec
= 999 it is; at msec = 1000 the request has tv_nsec = 10^9, which
nanosleep rejects with EINVAL so no waiting occurs at all; at msec = 2148
the 32-bit product overflows to a negative tv_nsec. -/
theorem timer_request_invalid :
    timerRequest 999 = (0, 999000000) ∧
    requestWaitsFor (timerRequest 999) 999 ∧
    timerRequest 1000 = (0, 1000000000) ∧
    nanosleepValid (timerRequest 1000) = false ∧
    ¬ requestWaitsFor (timerRequest 1000) 1000 ∧
    timerRequest 2148 = (0, -2146967296) ∧
    nanosleepValid (timerRequest 2148) = false := by
  refine ⟨by decide, ⟨by decide, by decide⟩, by decide, by decide, ?_, by decide, by decide⟩
  intro hw
  exact absurd hw.1 (by decide)

/-- C3 counterexample: invoked as a.out -5 the timeout argument parses
(via atoi) to the negative integer -5, yet no configuration error is
raised: the run proceeds past argument handling, both threads are
launched, the race runs and the process reports and exits 0. -/
theorem atoi_no_validation_counterexample :
    atoi ['-', '5'] = -5 ∧
    mainConfig [['a'], ['-', '5']] = some (-5) ∧
    (mainRun [['a'], ['-', '5']]
      ⟨false, ['n'], false, false, false, true, false, some [], 0⟩).1 = 0 ∧
    ((mainRun [['a'], ['-', '5']]
      ⟨false, ['n'], false, false, false, true, false, some [], 0⟩).2).isSome = true := by
  decide

/-- C3 as amended: main validates only the argument count: with exactly
one argument the race is attempted with the atoi value of that argument,
whatever it is; with any other count it exits -1 before launching any
thread. -/
theorem config_checks_argc_only (argv : List (List Char)) (env : RaceEnv) :
    (mainConfig argv = none ↔ argv.length ≠ 2) ∧
    (argv.length ≠ 2 → mainRun argv env = (-1, none)) ∧
    (∀ prog arg, mainConfig [prog, arg] = some (atoi arg)) := by
  refine ⟨?_, ?_, fun prog arg => rfl⟩
  · match argv with
    | [] => simp [mainConfig]
    | [p] => simp [mainConfig]
    | [p, a] => simp [mainConfig]
    | p :: a :: b :: t => simp [mainConfig]
  · intro hne
    match argv, hne with
    | [], _ => rfl
    | [p], _ => rfl
    | [p, a], hne => exact absurd rfl hne
    | p :: a :: b :: t, _ => rfl

/-- Witness for C3's amended theorem at concrete inputs. -/
theorem config_checks_argc_only_witness :
    (mainConfig [['a']] = none ↔ ([['a']] : List (List Char)).length ≠ 2) ∧
    mainRun ([] : List (List Char))
      ⟨false, ['n'], false, false, false, true, false, some [], 0⟩ = (-1, none) :=
  ⟨(config_checks_argc_only [['a']]
      ⟨false, ['n'], false, false, false, true, false, some [], 0⟩).1,
   (config_checks_argc_only []
      ⟨false, ['n'], false, false, false, true, false, some [], 0⟩).2.1 (by decide)⟩

/-- C4: the resolver records exactly the first accepted candidate in
enumeration order (Fqdn keeps its prior value when there is none), the
Fqdn field is written at most once per resolution, and scanning stops at
the first accepted candidate: entries after it are never examined. -/
theorem resolver_first_accepted (base : List Char) (info : HostInfo)
    (l : List IfAddr) :
    ((getfqdnLoop base info l).1).Fqdn = (firstAccepted base l).getD info.Fqdn ∧
    fqdnWrites (getfqdnLoop base info l).2 = (firstAccepted base l).toList ∧
    (fqdnWrites (getfqdnLoop base info l).2).length ≤ 1 ∧
    (∀ l₁ l₂ c, accept c base = true →
      getfqdnLoop base info (l₁ ++ IfAddr.lookupOk c :: l₂) =
        getfqdnLoop base info (l₁ ++ [IfAddr.lookupOk c])) := by
  refine ⟨getfqdnLoop_Fqdn base info l, fqdnWrites_getfqdnLoop base info l, ?_,
    fun l₁ l₂ c hacc => getfqdnLoop_stop base info l₁ l₂ c hacc⟩
  rw [fqdnWrites_getfqdnLoop base info l]
  cases firstAccepted base l <;> simp

/-- Witness for C4 at a concrete enumeration: with base n, the scan
[lookup-failure, n-x, n-y-z] records n-x (the first accepted candidate),
and the scan is insensitive to entries after an accepted candidate. -/
theorem resolver_first_accepted_witness :
    ((getfqdnLoop ['n'] (HostInfo.construct false ['n'])
      [IfAddr.lookupFail, IfAddr.lookupOk ['n', 'x'],
       IfAddr.lookupOk ['n', 'y', 'z']]).1).Fqdn = ['n', 'x'] ∧
    getfqdnLoop ['n'] (HostInfo.construct false ['n'])
      ([] ++ IfAddr.lookupOk ['n', 'x'] :: [IfAddr.lookupOk ['n', 'y']]) =
      getfqdnLoop ['n'] (HostInfo.construct false ['n'])
        ([] ++ [IfAddr.lookupOk ['n', 'x']]) := by
  constructor
  · rw [(resolver_first_accepted ['n'] (HostInfo.construct false ['n'])
      [IfAddr.lookupFail, IfAddr.lookupOk ['n', 'x'],
       IfAddr.lookupOk ['n', 'y', 'z']]).1]
    decide
  · exact (resolver_first_accepted ['n'] (HostInfo.construct false ['n'])
      []).2.2.2 [] [IfAddr.lookupOk ['n', 'y']] ['n', 'x'] (by decide)

/-- C6: the Result Record invariant (Fqdn equals Hostname, or contains
it as a strict substring and is strictly longer) holds at construction
and at every state the resolver passes through, i.e. it is preserved by
every write of the resolution. -/
theorem result_record_invariant (gh : Bool) (osName : List Char)
    (ifas : Option (List IfAddr)) (k : Nat) :
    HostInvariant (HostInfo.construct gh osName) ∧
    HostInvariant (resolverState (HostInfo.construct gh osName) ifas k) := by
  refine ⟨Or.inl rfl, ?_⟩
  cases ifas with
  | none =>
    by_cases hk : k = 0 <;> simp only [resolverState, hk, if_pos, if_neg] <;>
      exact Or.inl rfl
  | some l =>
    exact hostInvariant_loop _ _ _ rfl (Or.inl rfl)

theorem getfqdn_no_accept (info : HostInfo) (l : List IfAddr)
    (hfq : info.Fqdn = info.Hostname)
    (hnone : firstAccepted info.Hostname l = none) :
    ((getfqdn info (some l)).1).GetFqdn = info.Hostname := by
  have hH := getfqdnLoop_Hostname info.Hostname info l
  have hF := getfqdnLoop_Fqdn info.Hostname info l
  rw [hnone] at hF
  simp only [Option.getD_none, hfq] at hF
  simp only [getfqdn]
  unfold HostInfo.GetFqdn
  by_cases hE : ((getfqdnLoop info.Hostname info l).1).Error ≠ 0 <;>
    simp [hE, hH, hF]

/-- C5: when the resolver exhausts every enumerated address without an
accepted candidate (including an empty enumeration), the value main
reports is the original hostname and the exit code is 0. -/
theorem fallback_on_no_acceptance (argv : List (List Char)) (env : RaceEnv)
    (l : List IfAddr) (hargv : argv.length = 2)
    (h1 : env.timerCreateFails = false) (h2 : env.rdnsCreateFails = false)
    (h3 : env.timerJoinFails = false) (h4 : env.rdnsJoinFails = false)
    (hfin : env.rdnsFinished = true) (hifas : env.ifas = some l)
    (hnone : firstAccepted env.osName l = none) :
    mainRun argv env = (0, some env.osName) := by
  obtain ⟨p, a, rfl⟩ : ∃ p a, argv = [p, a] := by
    match argv, hargv with
    | [p, a], _ => exact ⟨p, a, rfl⟩
  have hrep : ((getfqdn (HostInfo.construct env.gethostnameFails env.osName)
      (some l)).1).GetFqdn = env.osName :=
    getfqdn_no_accept (HostInfo.construct env.gethostnameFails env.osName) l rfl hnone
  simp [mainRun, mainConfig, h1, h2, h3, h4, hfin, hifas, hrep]

/-- Witness for C5: base hostname n, enumeration holding a failing
lookup, a non-IP entry and a candidate equal to the hostname (rejected):
the reported value is n and the exit code 0. -/
theorem fallback_on_no_acceptance_witness :
    mainRun [['a'], ['9']]
      ⟨false, ['n'], false, false, false, true, false,
        some [IfAddr.lookupFail, IfAddr.nonIP, IfAddr.lookupOk ['n']], 0⟩ =
      (0, some ['n']) :=
  fallback_on_no_acceptance [['a'], ['9']] _
    [IfAddr.lookupFail, IfAddr.nonIP, IfAddr.lookupOk ['n']]
    rfl rfl rfl rfl rfl rfl rfl (by decide)

/-- C7: when address enumeration fails the resolver sets the error state
to -2 (EnumerationFailed) and terminates having performed no reverse
lookup and no match test; and whenever enumeration succeeds and yields at
least one IPv4/IPv6 address, at least one reverse lookup is performed, so
no other condition skips the scan entirely. -/
theorem enumeration_failure_skips_matching (info : HostInfo) :
    (getfqdn info none).1 = info.SetError (-2) ∧
    (getfqdn info none).2 = [Ev.enumFail] ∧
    ((getfqdn info none).2).any isLookupEv = false ∧
    ((getfqdn info none).2).any isMatchEv = false ∧
    (∀ l, l.any isIP = true →
      ((getfqdn info (some l)).2).any isLookupEv = true) := by
  refine ⟨rfl, rfl, rfl, rfl, fun l h => ?_⟩
  simp only [getfqdn, List.any_cons, List.any_append, isLookupEv,
    Bool.false_or, Bool.or_false, List.any_nil]
  rw [loop_lookup_event info.Hostname info l h]

/-- Witness for C7 at concrete inputs. -/
theorem enumeration_failure_skips_matching_witness :
    (getfqdn (HostInfo.construct false ['n']) none).1 =
      (HostInfo.construct false ['n']).SetError (-2) ∧
    ((getfqdn (HostInfo.construct false ['n'])
      (some [IfAddr.lookupFail])).2).any isLookupEv = true :=
  ⟨(enumeration_failure_skips_matching (HostInfo.construct false ['n'])).1,
   (enumeration_failure_skips_matching (HostInfo.construct false ['n'])).2.2.2.2
     [IfAddr.lookupFail] (by decide)⟩

/-- C8: a block of failing lookups merely records the soft error -3
(LookupFailed) and the scan continues with the remaining addresses: the
final state is that of scanning the rest from a state whose error flag is
-3, the events are the failure events followed by the rest of the scan,
and the first accepted candidate is unchanged — a failure on one address
never aborts the scan of the remaining addresses. -/
theorem lookup_failure_continues (base : List Char) (info : HostInfo)
    (rest : List IfAddr) (n : Nat) (hn : n ≠ 0) :
    (getfqdnLoop base info (List.replicate n IfAddr.lookupFail ++ rest)).1 =
      (getfqdnLoop base (info.SetError (-3)) rest).1 ∧
    (getfqdnLoop base info (List.replicate n IfAddr.lookupFail ++ rest)).2 =
      List.replicate n Ev.lookupFailEv ++
        (getfqdnLoop base (info.SetError (-3)) rest).2 ∧
    firstAccepted base (List.replicate n IfAddr.lookupFail ++ rest) =
      firstAccepted base rest := by
  induction n generalizing info with
  | zero => exact absurd rfl hn
  | succ m ih =>
    by_cases hm : m = 0
    · subst hm
      simp [getfqdnLoop, firstAccepted, List.replicate]
    · obtain ⟨ih1, ih2, ih3⟩ := ih (info.SetError (-3)) hm
      have hdup : (info.SetError (-3)).SetError (-3) = info.SetError (-3) := rfl
      rw [hdup] at ih1 ih2
      refine ⟨?_, ?_, ?_⟩
      · simp only [List.replicate_succ, List.cons_append, getfqdnLoop,
          List.append_eq]
        exact ih1
      · simp only [List.replicate_succ, List.cons_append, getfqdnLoop,
          List.append_eq]
        rw [ih2]
      · simp only [List.replicate_succ, List.cons_append, firstAccepted]
        exact ih3

/-- Witness for C8: two failing lookups before an accepted candidate do
not prevent the candidate from being found. -/
theorem lookup_failure_continues_witness :
    (getfqdnLoop ['n'] (HostInfo.construct false ['n'])
      (List.replicate 2 IfAddr.lookupFail ++ [IfAddr.lookupOk ['n', 'x']])).1 =
      (getfqdnLoop ['n'] ((HostInfo.construct false ['n']).SetError (-3))
        [IfAddr.lookupOk ['n', 'x']]).1 ∧
    firstAccepted ['n']
        (List.replicate 2 IfAddr.lookupFail ++ [IfAddr.lookupOk ['n', 'x']]) =
      firstAccepted ['n'] [IfAddr.lookupOk ['n', 'x']] :=
  ⟨(lookup_failure_continues ['n'] (HostInfo.construct false ['n'])
      [IfAddr.lookupOk ['n', 'x']] 2 (by decide)).1,
   (lookup_failure_continues ['n'] (HostInfo.construct false ['n'])
      [IfAddr.lookupOk ['n', 'x']] 2 (by decide)).2.2⟩

/-- C9: the exit code of main is exactly: 0 on every path that reaches
reporting (and reporting is reached exactly when the code is 0, whatever
the resolver record holds — soft conditions never change it); -1 for a
wrong argument count or a resolver-thread launch failure; -2 for a
timer-thread launch failure; -3 for a failure waiting on the timer
thread; -5 for a failure waiting on the resolver thread; and no other
exit code is possible.  The last conjunct states that the exit code
depends only on the argument count and the four task-lifecycle failures,
never on the resolution outcome. -/
theorem main_exit_codes (argv : List (List Char)) (env : RaceEnv) :
    ((mainRun argv env).1 = 0 ∨ (mainRun argv env).1 = -1 ∨
      (mainRun argv env).1 = -2 ∨ (mainRun argv env).1 = -3 ∨
      (mainRun argv env).1 = -5) ∧
    ((mainRun argv env).1 = 0 ↔ ((mainRun argv env).2).isSome = true) ∧
    ((mainRun argv env).1 = -2 ↔
      argv.length = 2 ∧ env.timerCreateFails = true) ∧
    ((mainRun argv env).1 = -3 ↔ argv.length = 2 ∧
      env.timerCreateFails = false ∧ env.rdnsCreateFails = false ∧
      env.timerJoinFails = true) ∧
    ((mainRun argv env).1 = -5 ↔ argv.length = 2 ∧
      env.timerCreateFails = false ∧ env.rdnsCreateFails = false ∧
      env.timerJoinFails = false ∧ env.rdnsJoinFails = true) ∧
    ((mainRun argv env).1 = -1 ↔ argv.length ≠ 2 ∨
      (env.timerCreateFails = false ∧ env.rdnsCreateFails = true)) ∧
    (∀ env2 : RaceEnv,
      env.timerCreateFails = env2.timerCreateFails →
      env.rdnsCreateFails = env2.rdnsCreateFails →
      env.timerJoinFails = env2.timerJoinFails →
      env.rdnsJoinFails = env2.rdnsJoinFails →
      (mainRun argv env).1 = (mainRun argv env2).1) := by
  have hshape : (mainConfig argv = none ∧ argv.length ≠ 2) ∨
      ∃ p b, argv = [p, b] := by
    match argv with
    | [] => exact Or.inl ⟨rfl, by simp⟩
    | [p] =>
      refine Or.inl ⟨rfl, ?_⟩
      simp only [List.length_cons, List.length_nil]
      omega
    | [p, b] => exact Or.inr ⟨p, b, rfl⟩
    | p :: b :: c :: t =>
      refine Or.inl ⟨rfl, ?_⟩
      simp only [List.length_cons]
      omega
  rcases hshape with ⟨hcfg, hlen⟩ | ⟨p, b, rfl⟩
  · have hrun : mainRun argv env = (-1, none) := by
      unfold mainRun
      rw [hcfg]
    have hrun2 : ∀ e2 : RaceEnv, mainRun argv e2 = (-1, none) := by
      intro e2
      unfold mainRun
      rw [hcfg]
    rw [hrun]
    refine ⟨by norm_num, by simp, by simp [hlen], by simp [hlen],
      by simp [hlen], by simp [hlen], ?_⟩
    intro env2 _ _ _ _
    rw [hrun2 env2]
  · have hindep : ∀ e1 e2 : RaceEnv,
        e1.timerCreateFails = e2.timerCreateFails →
        e1.rdnsCreateFails = e2.rdnsCreateFails →
        e1.timerJoinFails = e2.timerJoinFails →
        e1.rdnsJoinFails = e2.rdnsJoinFails →
        (mainRun [p, b] e1).1 = (mainRun [p, b] e2).1 := by
      intro e1 e2 h1 h2 h3 h4
      simp only [mainRun, mainConfig, h1, h2, h3, h4]
      cases e2.timerCreateFails <;> cases e2.rdnsCreateFails <;>
        cases e2.timerJoinFails <;> cases e2.rdnsJoinFails <;> simp
    obtain ⟨gh, os, tc, rc, tj, rf, rj, ifas, cp⟩ := env
    refine ⟨?_, ?_, ?_, ?_, ?_, ?_, fun env2 h1 h2 h3 h4 =>
      hindep ⟨gh, os, tc, rc, tj, rf, rj, ifas, cp⟩ env2 h1 h2 h3 h4⟩ <;>
      cases tc <;> cases rc <;> cases tj <;> cases rj <;>
        simp [mainRun, mainConfig]

/-- Witness for C9: the exit code at a concrete invocation is unchanged
when the resolution-related parts of the environment (the address list,
whether the resolver finished, the hostname) change. -/
theorem main_exit_codes_witness :
    (mainRun [['a'], ['5']]
      ⟨false, ['n'], false, false, false, true, false, some [], 0⟩).1 =
    (mainRun [['a'], ['5']]
      ⟨true, ['m'], false, false, false, false, false, none, 3⟩).1 :=
  (main_exit_codes [['a'], ['5']]
    ⟨false, ['n'], false, false, false, true, false, some [], 0⟩).2.2.2.2.2.2
    ⟨true, ['m'], false, false, false, false, false, none, 3⟩ rfl rfl rfl rfl

/-- C10: evaluation of the resolver's event trace at a concrete input.
On the completed run the release of the getifaddrs list is the final
event, so it does happen on the normal completion paths; but every
proper truncation of the run — which is what abandoning the thread with
pthread_cancel produces — has acquired the enumeration (the first event)
and never reaches the release, leaking it. -/
theorem abandonment_leaks_ifaddrs :
    ((getfqdn (HostInfo.construct false ['n'])
      (some [IfAddr.lookupOk ['n', 'x']])).2).getLast? = some Ev.freeAddrs ∧
    Ev.enumOk ∈ ((getfqdn (HostInfo.construct false ['n'])
      (some [IfAddr.lookupOk ['n', 'x']])).2).take 1 ∧
    (∀ k, k < ((getfqdn (HostInfo.construct false ['n'])
        (some [IfAddr.lookupOk ['n', 'x']])).2).length →
      Ev.freeAddrs ∉ ((getfqdn (HostInfo.construct false ['n'])
        (some [IfAddr.lookupOk ['n', 'x']])).2).take k) := by
  decide

end Netthread
